import Mathlib

/-!
Verification of the shepherd/shepard media-to-summary pipeline.

This file gives a shallow embedding, in Lean 4, of the pure computational
content of the pipeline sources under `src/pipeline/`:

* text utilities mirroring the Python `str` methods used by the code
  (`strip`, `split`, `replace`, `endswith`);
* the result models (`AudioResult`, `AudioChunk`, `TranscriptionResult`,
  `CorrectionResult`, `SummaryResult`, `PipelineResult`);
* the stage tasks (`merge_corrected_texts`, `validate_summary_quality`,
  `correct_transcription`, `summarize_text`, the fan-out orchestrators,
  `chunk_audio`);
* the artifact manager (`get_artifact_key`, `save_audio` / `get_audio`);
* the top-level flows (`youtube_pipeline_flow`, `text_summary_pipeline_flow`),
  with each stage's external I/O abstracted as an outcome environment;
* the mock correction service (`MockAIService.correct_text`).

Python text is modelled as its character sequence (`List Char`), machine
floats carrying exact durations/offsets as rationals, and code that can
raise as `Except` values.  Theorems about these definitions settle the
behavioural properties claimed of the system.
-/

/-- Python text modelled as its sequence of characters. -/
abbrev Str := List Char

/-- The whitespace characters recognised by Python `str.strip` / `str.split`
(the ASCII subset, which is what the pipeline's data contains). -/
def isPySpace (c : Char) : Bool :=
  c = ' ' || c = '\t' || c = '\n' || c = '\x0d' || c = '\x0b' || c = '\x0c'

/-- Python `str.strip()`: remove leading and trailing whitespace. -/
def pyStrip (s : Str) : Str :=
  ((s.dropWhile isPySpace).reverse.dropWhile isPySpace).reverse

/-- Helper for `pySplit`: `acc` is the current in-progress word, reversed. -/
def pySplitAux : Str → Str → List Str
  | [], acc => if acc = [] then [] else [acc.reverse]
  | c :: rest, acc =>
      if isPySpace c then
        if acc = [] then pySplitAux rest [] else acc.reverse :: pySplitAux rest []
      else pySplitAux rest (c :: acc)

/-- Python `str.split()` with no argument: split on whitespace runs,
discarding empty fields. -/
def pySplit (s : Str) : List Str := pySplitAux s []

/-- Python `s.endswith(cs)` where every member of `cs` is a single
character: does the last character of `s` belong to `cs`?
(`"".endswith` of a non-empty suffix is `False`.) -/
def endsWithAnyChar (s : Str) (cs : List Char) : Bool :=
  match s.getLast? with
  | some c => cs.contains c
  | none => false

/-- Python truthiness of an optional string field (`if result.failure_reason:`):
true exactly on a present, non-empty string. -/
def truthy : Option Str → Bool
  | none => false
  | some s => !s.isEmpty

/-- Decimal digits of a natural number (Python `str(n)` for `n : int`, n ≥ 0). -/
def natToStr (n : Nat) : Str := Nat.toDigits 10 n

/-- Python `str(n)` for an `int`. -/
def intToStr (n : Int) : Str :=
  if n < 0 then '-' :: natToStr n.natAbs else natToStr n.natAbs

/-- Python `int(x)` on a real value: truncation toward zero. -/
def pyInt (q : ℚ) : ℤ := if 0 ≤ q then q.floor else q.ceil

/-! ## Data models

Field sets follow `shepherd_pipeline/services/youtube/schema.py` and the
result models of §3 of the design (the `shepherd` variants of
`TranscriptionResult` / `CorrectionResult` / `SummaryResult` are
reconstructed from their construction sites in
`services/llm_provider/mock.py` and the stage tasks, the class bodies
themselves not being packaged under `src/`). -/

/-- The `AudioResult` (`services/youtube/schema.py`): metadata of a
downloaded audio asset. -/
structure AudioResult where
  title : Str
  duration : ℚ
  file_path : Str
  format : Str
  sample_rate : ℤ
  file_size : ℤ
  upload_date : Option Str := none
  original_duration : ℚ
  start_time : Option ℚ := none
  end_time : Option ℚ := none
deriving DecidableEq, Repr

/-- The `AudioChunk`: one slice of audio (identifier, offsets in seconds,
file location). -/
structure AudioChunk where
  chunk_id : Str
  start_time : ℚ
  end_time : ℚ
  file_path : Str
  duration : ℚ
deriving DecidableEq, Repr

/-- The `TranscriptionResult`: raw transcribed text plus an optional
failure reason (failure-as-data). -/
structure TranscriptionResult where
  raw_text : Str
  language : Str
  model : Str
  failure_reason : Option Str := none
deriving DecidableEq, Repr

/-- The `CorrectionResult`: pre- and post-correction text plus an optional
failure reason. -/
structure CorrectionResult where
  original_text : Str
  corrected_text : Str
  language : Str
  model : Str
  failure_reason : Option Str := none
deriving DecidableEq, Repr

/-- The `SummaryResult`: summary text, self-reported word count, and an
optional failure reason. -/
structure SummaryResult where
  summary : Str
  word_count : ℤ
  model : Str
  custom_instructions : Option Str := none
  failure_reason : Option Str := none
deriving DecidableEq, Repr

/-- The `JobStatus` (`models/pipeline.py`). -/
inductive JobStatus where
  | pending
  | running
  | completed
  | failed
  | cancelled
deriving DecidableEq, Repr

/-- The `PipelineResult` (`models/pipeline.py`): the job record owned by the
flow.  Timestamps carry no arithmetic content here, so a stamped time is
modelled as `some ()`. -/
structure PipelineResult where
  status : JobStatus
  audio_chunks : List AudioChunk := []
  transcriptions : List TranscriptionResult := []
  corrections : List CorrectionResult := []
  summary : Option SummaryResult := none
  started_at : Option Unit := none
  completed_at : Option Unit := none
  error_message : Option Str := none
  credits_consumed : ℤ := 0
deriving DecidableEq, Repr

/-! ## Stage tasks (`tasks/transcription_tasks.py`, `tasks/summarization_tasks.py`) -/

/-- The sentence-terminal characters checked by `merge_corrected_texts`:
`("。", "！", "？", "\n")`. -/
def mergeTerminalChars : List Char := ['。', '！', '？', '\n']

/-- The `merge_corrected_texts` (`transcription_tasks.py:141-152`): iterate the
corrections in list order, appending each `corrected_text` to the
accumulator and a single space when that text does not end in `。`, `！`,
`？` or a newline; finally `strip` the accumulated document. -/
def merge_corrected_texts (corrections : List CorrectionResult) : Str :=
  pyStrip (corrections.foldl
    (fun merged_text correction =>
      merged_text ++ correction.corrected_text ++
        (if endsWithAnyChar correction.corrected_text mergeTerminalChars then [] else [' ']))
    [])

/-- The `correct_transcription` (`transcription_tasks.py:93-116`): the
correction stage task.  The capability call itself is external I/O, so its
result is the argument `capResult`; the task raises (`RuntimeError`)
exactly when the capability signalled failure-as-data, and otherwise hands
back the capability's result unchanged. -/
def correct_transcription (capResult : CorrectionResult)
    (transcription : TranscriptionResult) : Except Str CorrectionResult :=
  if truthy capResult.failure_reason then
    Except.error (("Correction failed for ").toList ++ transcription.raw_text ++
      (": ").toList ++ capResult.failure_reason.getD [])
  else Except.ok capResult

/-- The `summarize_text` (`summarization_tasks.py:14-33`): the summarization
stage task, with the capability result as argument; raises exactly when the
capability signalled failure-as-data. -/
def summarize_text (capResult : SummaryResult) (text : Str) :
    Except Str SummaryResult :=
  if truthy capResult.failure_reason then
    Except.error (("Summarization failed for ").toList ++ text.take 100 ++
      (": ").toList ++ capResult.failure_reason.getD [])
  else Except.ok capResult

/-- The `validate_summary_quality` (`summarization_tasks.py:36-50`): the summary
quality gate; a total boolean function. -/
def validate_summary_quality (summary : SummaryResult) (original_text : Str) : Bool :=
  if summary.summary = [] || decide ((pyStrip summary.summary).length < 10) then
    false
  else if pyStrip summary.summary = pyStrip original_text then
    false
  else
    decide ((((pySplit summary.summary).length : ℤ) - summary.word_count).natAbs ≤ 5)

/-! ## Parallel fan-out orchestrators

In the source, `transcribe_chunks_parallel` and
`correct_transcriptions_parallel` submit one stage-task future per input
element, building the futures list in input order, and then collect
`task.result()` from the futures in that same order; each future's value
is determined by its own input, so which future finishes first does not
affect which future holds which result.  Collection therefore amounts to
mapping the stage task over the input list and propagating the first
raised error. -/

/-- Collect `task.result()` in submission order: the first future whose
stage task raised makes the whole collection raise. -/
def collectResults {β : Type} : List (Except Str β) → Except Str (List β)
  | [] => Except.ok []
  | Except.error e :: _ => Except.error e
  | Except.ok b :: rest => (collectResults rest).map (fun bs => b :: bs)

/-- The `transcribe_chunks_parallel` (`transcription_tasks.py:68-85`):
`transcribeOne` is the (already retried / fallen-back) stage task
`transcribe_audio_chunk` applied to one chunk. -/
def transcribe_chunks_parallel
    (transcribeOne : AudioChunk → Except Str TranscriptionResult)
    (chunks : List AudioChunk) : Except Str (List TranscriptionResult) :=
  collectResults (chunks.map transcribeOne)

/-- The `correct_transcriptions_parallel` (`transcription_tasks.py:119-138`). -/
def correct_transcriptions_parallel
    (correctOne : TranscriptionResult → Except Str CorrectionResult)
    (transcriptions : List TranscriptionResult) : Except Str (List CorrectionResult) :=
  collectResults (transcriptions.map correctOne)

/-! ## Audio chunking (`tasks/audio_tasks.py`) -/

/-- Python `s.split(sep)` keeping empty fields; helper with reversed
accumulator. -/
def splitOnCharAux (sep : Char) : Str → Str → List Str
  | [], acc => [acc.reverse]
  | c :: rest, acc =>
      if c = sep then acc.reverse :: splitOnCharAux sep rest []
      else splitOnCharAux sep rest (c :: acc)

/-- Python `s.split(sep)` for a one-character separator. -/
def splitOnChar (sep : Char) (s : Str) : List Str := splitOnCharAux sep s []

/-- The `ArtifactManager.chunk_folder` (`utils/artifact_manager.py:87-89`):
`ARTIFACTS_DIR / "chunks" / f"{chunk_size_minutes}min" / audio_key` where
`audio_key = file_path.split("/")[-1].split(".")[0]`. -/
def chunk_folder (audio_result : AudioResult) (chunk_size_minutes : Nat) : Str :=
  let audio_key :=
    ((splitOnChar '/' audio_result.file_path).getLastD []).takeWhile (fun c => c ≠ '.')
  ("pipeline_artifacts/chunks/").toList ++ natToStr chunk_size_minutes ++
    ("min/").toList ++ audio_key

/-- The chunk identifier `f"chunk_{idx}"`. -/
def chunkIdStr (idx : Nat) : Str := ("chunk_").toList ++ natToStr idx

/-- The chunk file path `str(chunks_dir / f"chunk_{uuid4()}_{idx}.mp3")`;
`uuid` supplies the pseudo-random uuid drawn for the chunk with index `idx`. -/
def chunkFilePath (chunksDir : Str) (uuid : Nat → Str) (idx : Nat) : Str :=
  chunksDir ++ ('/' :: ("chunk_").toList) ++ uuid idx ++ ('_' :: natToStr idx) ++
    (".mp3").toList

/-- The mock branch of `chunk_audio` (`audio_tasks.py:82-112`): tile the
fixed `total_duration = 1800` seconds in steps of `chunk_duration`
seconds.  The loop runs while `current_time < total_duration`; the source's
float-valued clock only ever holds whole numbers of seconds here, so the
clock is a natural number.  (A zero `chunk_duration` would make the Python
loop diverge; the input model bounds `chunk_size_minutes ≥ 1`, and the
guard below records that assumption.) -/
def mockChunkLoop (chunksDir : Str) (uuid : Nat → Str) (chunkDuration : Nat)
    (currentTime : Nat) (chunkIdx : Nat) : List AudioChunk :=
  if h : currentTime < 1800 ∧ 0 < chunkDuration then
    let endTime := min (currentTime + chunkDuration) 1800
    { chunk_id := chunkIdStr chunkIdx,
      start_time := (currentTime : ℚ),
      end_time := (endTime : ℚ),
      file_path := chunkFilePath chunksDir uuid chunkIdx,
      duration := (endTime : ℚ) - (currentTime : ℚ) } ::
      mockChunkLoop chunksDir uuid chunkDuration endTime (chunkIdx + 1)
  else []
termination_by 1800 - currentTime
decreasing_by
  have h1 : currentTime < min (currentTime + chunkDuration) 1800 :=
    lt_min (Nat.lt_add_of_pos_right h.2) h.1
  omega

/-- The chunk lengths, in milliseconds, produced by pydub's
`make_chunks(audio, chunk_length_ms)`: the slices
`audio[i : i + chunk_length_ms]` for `i in range(0, len(audio),
chunk_length_ms)`.  Modelled from the library's documented slicing
semantics (the audio file itself is outside the repository): every slice
is full-length except a shorter final remainder.  (`range` with step 0
raises in Python; the guard records `chunk_length_ms > 0`.) -/
def makeChunkLens (totalMs chunkMs : Nat) : List Nat :=
  if h : 0 < totalMs ∧ 0 < chunkMs then
    min chunkMs totalMs :: makeChunkLens (totalMs - min chunkMs totalMs) chunkMs
  else []
termination_by totalMs
decreasing_by
  have h1 : 0 < min chunkMs totalMs := lt_min h.2 h.1
  omega

/-- The production branch of `chunk_audio` (`audio_tasks.py:114-157`):
walk the pydub chunk list accumulating exact offsets —
`start_time := current_time`, `duration := len(chunk) / 1000`,
`end_time := start_time + duration`. -/
def buildChunks (chunksDir : Str) (uuid : Nat → Str) :
    ℚ → Nat → List Nat → List AudioChunk
  | _, _, [] => []
  | currentTime, i, lenMs :: rest =>
      let durationSeconds : ℚ := (lenMs : ℚ) / 1000
      { chunk_id := chunkIdStr i,
        start_time := currentTime,
        end_time := currentTime + durationSeconds,
        file_path := chunkFilePath chunksDir uuid i,
        duration := durationSeconds } ::
        buildChunks chunksDir uuid (currentTime + durationSeconds) (i + 1) rest

/-- The `chunk_audio` (`audio_tasks.py:71-157`).  `uuid` abstracts the uuid4
draws used in chunk file names and `audioLenMs` is the length, in
milliseconds, of the audio the production branch loads from
`audio_result.file_path` (the file's content is external to the
repository; its length is the parameter the slicing is a function of). -/
def chunk_audio (uuid : Nat → Str) (audio_result : AudioResult)
    (chunk_size_minutes : Nat) (use_mock : Bool) (audioLenMs : Nat) :
    List AudioChunk :=
  let chunks_dir := chunk_folder audio_result chunk_size_minutes
  if use_mock then
    mockChunkLoop chunks_dir uuid (chunk_size_minutes * 60) 0 0
  else
    buildChunks chunks_dir uuid 0 0
      (makeChunkLens audioLenMs (chunk_size_minutes * 60 * 1000))

/-- The `chainedFromB t cs`: the chunks `cs` start at time `t` and each
chunk starts where the previous one ends (contiguity of the
`[start_time, end_time)` intervals). -/
def chainedFromB (t : ℚ) : List AudioChunk → Bool
  | [] => true
  | c :: rest => decide (c.start_time = t) && chainedFromB c.end_time rest

/-- The `lastEndB d cs`: the last chunk of `cs` ends exactly at `d` (so the
chunks, when chained from 0, cover `[0, d)`). -/
def lastEndB (d : ℚ) (cs : List AudioChunk) : Bool :=
  match cs.getLast? with
  | some c => decide (c.end_time = d)
  | none => false

/-! ## Artifact manager: cache key (`utils/artifact_manager.py:64-68`)

`get_artifact_key(**kwargs)` computes
`hashlib.md5(json.dumps(kwargs, sort_keys=True).encode()).hexdigest()[:16]`.
The keyword arguments are a finite map from (unique) parameter names to
`str | float | int | None` values; `sort_keys=True` serialises the pairs
ordered by parameter name. -/

/-- A value admissible as a `get_artifact_key` keyword argument
(`str | float | int | None`). -/
inductive PyVal where
  | str (s : Str)
  | int (n : ℤ)
  | float (q : ℚ)
  | none
deriving DecidableEq, Repr

/-- Lexicographic comparison of Python strings by code point
(Python `<=` on `str`). -/
def strLeB : Str → Str → Bool
  | [], _ => true
  | _ :: _, [] => false
  | a :: s, b :: t => if a < b then true else if a = b then strLeB s t else false

/-- Ordering of keyword pairs by parameter name, as `sort_keys=True` does. -/
def keyLE (p q : Str × PyVal) : Prop := strLeB p.1 q.1 = true

instance : DecidableRel keyLE := fun p q => decEq (strLeB p.1 q.1) true

/-- Strict version of `keyLE`, used to pin down sorted lists of pairs with
pairwise-distinct names. -/
def keyLT (p q : Str × PyVal) : Prop := keyLE p q ∧ p.1 ≠ q.1

/-- JSON string escaping for the characters that need it in the serialised
parameter values (backslash and double quote); other characters are
emitted unchanged. -/
def escapeJson : Str → Str
  | [] => []
  | c :: rest =>
      if c = '"' || c = '\\' then '\\' :: c :: escapeJson rest
      else c :: escapeJson rest

/-- Rendering of one keyword value as a JSON token.  `json.dumps` renders
`None` as `null`, strings quoted and escaped, and numbers in decimal;
the exact digit string `repr` produces for a float is immaterial to every
property of the key (any injective deterministic rendering serves), so a
rational value is rendered canonically as `numerator/denominator`. -/
def serializePyVal : PyVal → Str
  | PyVal.str s => '"' :: escapeJson s ++ ['"']
  | PyVal.int n => intToStr n
  | PyVal.float q => intToStr q.num ++ ('/' :: natToStr q.den)
  | PyVal.none => ("null").toList

/-- Interleave a separator between serialised fields
(the `", "` item separator of `json.dumps`). -/
def joinSep (sep : Str) : List Str → Str
  | [] => []
  | [s] => s
  | s :: rest => s ++ sep ++ joinSep sep rest

/-- One serialised `"name": value` member. -/
def serializePair (p : Str × PyVal) : Str :=
  '"' :: escapeJson p.1 ++ ('"' :: (": ").toList) ++ serializePyVal p.2

/-- The `json.dumps(kwargs, sort_keys=True)`: the members, sorted by parameter
name, joined with `", "` inside braces. -/
def jsonDumpsSorted (params : List (Str × PyVal)) : Str :=
  '\x7b' :: joinSep ((", ").toList) ((List.insertionSort keyLE params).map serializePair)
    ++ ['\x7d']

/-- The `ArtifactManager.get_artifact_key` (`utils/artifact_manager.py:64-68`).
`md5hex` abstracts `hashlib.md5(...).hexdigest()` — a fixed deterministic
function of the serialised byte string whose internals the key's
properties do not depend on. -/
def get_artifact_key (md5hex : Str → Str) (params : List (Str × PyVal)) : Str :=
  (md5hex (jsonDumpsSorted params)).take 16

/-! ## Artifact manager: audio metadata cache
(`utils/artifact_manager.py:70-85`)

`save_audio` writes `audio_result.model_dump_json()` to
`downloads/<key>/metadata.json`; `get_audio` reads that file back through
`AudioResult.model_validate_json`.  The on-disk artifact tree is modelled
as a map from paths to stored JSON documents (the claim's premise that the
audio folder exists makes the write succeed), and the pydantic
serialisation as a total function to a JSON syntax tree, with validation
as its partial inverse. -/

/-- A JSON document.  `jint` and `jfloat` reflect JSON's distinct integer
and float number tokens, which pydantic emits for `int` and `float`
fields respectively. -/
inductive Json where
  | jstr (s : Str)
  | jint (n : ℤ)
  | jfloat (q : ℚ)
  | jnull
  | jobj (fields : List (Str × Json))
deriving Repr

/-- Field lookup in a JSON object. -/
def jsonLookup (key : Str) : List (Str × Json) → Option Json
  | [] => Option.none
  | (k, v) :: rest => if key = k then some v else jsonLookup key rest

/-- An optional string field: pydantic accepts a JSON string or `null`. -/
def jsonOptStr : Json → Option (Option Str)
  | Json.jstr s => some (some s)
  | Json.jnull => some Option.none
  | _ => Option.none

/-- An optional float field: a JSON number or `null`. -/
def jsonOptFloat : Json → Option (Option ℚ)
  | Json.jfloat q => some (some q)
  | Json.jint n => some (some (n : ℚ))
  | Json.jnull => some Option.none
  | _ => Option.none

/-- The `AudioResult.model_dump_json()` as a JSON syntax tree:
every field of §3's `AudioResult`, optional fields dumped as `null`
when absent. -/
def audioResultToJson (r : AudioResult) : Json :=
  Json.jobj
    [(("title").toList, Json.jstr r.title),
     (("duration").toList, Json.jfloat r.duration),
     (("file_path").toList, Json.jstr r.file_path),
     (("format").toList, Json.jstr r.format),
     (("sample_rate").toList, Json.jint r.sample_rate),
     (("file_size").toList, Json.jint r.file_size),
     (("upload_date").toList,
       match r.upload_date with
       | some s => Json.jstr s
       | Option.none => Json.jnull),
     (("original_duration").toList, Json.jfloat r.original_duration),
     (("start_time").toList,
       match r.start_time with
       | some q => Json.jfloat q
       | Option.none => Json.jnull),
     (("end_time").toList,
       match r.end_time with
       | some q => Json.jfloat q
       | Option.none => Json.jnull)]

/-- The `AudioResult.model_validate_json`: field-wise typed extraction; fails
(`none`) on a missing or ill-typed required field. -/
def audioResultFromJson : Json → Option AudioResult
  | Json.jobj fields => do
      let title ← match jsonLookup (("title").toList) fields with
        | some (Json.jstr s) => some s
        | _ => Option.none
      let duration ← match jsonLookup (("duration").toList) fields with
        | some (Json.jfloat q) => some q
        | some (Json.jint n) => some ((n : ℚ))
        | _ => Option.none
      let file_path ← match jsonLookup (("file_path").toList) fields with
        | some (Json.jstr s) => some s
        | _ => Option.none
      let format ← match jsonLookup (("format").toList) fields with
        | some (Json.jstr s) => some s
        | _ => Option.none
      let sample_rate ← match jsonLookup (("sample_rate").toList) fields with
        | some (Json.jint n) => some n
        | _ => Option.none
      let file_size ← match jsonLookup (("file_size").toList) fields with
        | some (Json.jint n) => some n
        | _ => Option.none
      let upload_date ← match jsonLookup (("upload_date").toList) fields with
        | some j => jsonOptStr j
        | Option.none => some Option.none
      let original_duration ← match jsonLookup (("original_duration").toList) fields with
        | some (Json.jfloat q) => some q
        | some (Json.jint n) => some ((n : ℚ))
        | _ => Option.none
      let start_time ← match jsonLookup (("start_time").toList) fields with
        | some j => jsonOptFloat j
        | Option.none => some Option.none
      let end_time ← match jsonLookup (("end_time").toList) fields with
        | some j => jsonOptFloat j
        | Option.none => some Option.none
      some { title := title, duration := duration, file_path := file_path,
             format := format, sample_rate := sample_rate, file_size := file_size,
             upload_date := upload_date, original_duration := original_duration,
             start_time := start_time, end_time := end_time }
  | _ => Option.none

/-- The artifact tree: stored JSON documents indexed by path. -/
def ArtifactStore := Str → Option Json

/-- The `ArtifactManager.audio_folder(key) / "metadata.json"`. -/
def metadataPath (key : Str) : Str :=
  ("pipeline_artifacts/downloads/").toList ++ key ++ ("/metadata.json").toList

/-- The `ArtifactManager.save_audio` (`artifact_manager.py:82-85`). -/
def save_audio (store : ArtifactStore) (key : Str) (audio_result : AudioResult) :
    ArtifactStore :=
  fun p => if p = metadataPath key then some (audioResultToJson audio_result) else store p

/-- The `ArtifactManager.get_audio` (`artifact_manager.py:74-80`): `none` when
the metadata file does not exist (a missing cache entry is a normal
not-found result); an unparsable document, on which the source would raise
a validation error, is likewise collapsed to `none` here — the round-trip
property never hits that branch. -/
def get_audio (store : ArtifactStore) (key : Str) : Option AudioResult :=
  match store (metadataPath key) with
  | Option.none => Option.none
  | some j => audioResultFromJson j

/-! ## Pipeline flows (`shepherd_pipeline/flows/main_flows.py`,
`shepard_pipeline/flows/main_flows.py`)

Each stage task performs external I/O, so a flow run is determined by the
outcome each stage call produces: a returned value, or a raised exception
carrying a message.  `StageEnv` packages those outcomes; the flow body
below then mirrors the source statement for statement — the job record
mutations, the `try`/`except` conversion of stage exceptions into a
Failed record, and the `finally` cleanup.  `merge_corrected_texts` and
`validate_summary_quality` are local pure computations and are called
directly. -/

/-- The outcome of each stage call of one `youtube_pipeline_flow` run. -/
structure StageEnv where
  download : Except Str AudioResult
  chunk : AudioResult → Except Str (List AudioChunk)
  transcribe : List AudioChunk → Except Str (List TranscriptionResult)
  correct : List TranscriptionResult → Except Str (List CorrectionResult)
  summarize : Str → Except Str SummaryResult

/-- The message of the `UnboundLocalError` Python raises when the
`finally` block of `youtube_pipeline_flow` evaluates
`artifact_manager.remove_chunks(audio_metadata, ...)` after the download
stage raised, `audio_metadata` never having been assigned. -/
def unboundLocalAudioMetadata : Str :=
  ("UnboundLocalError: local variable audio_metadata referenced before assignment").toList

/-- The `youtube_pipeline_flow` (`shepherd_pipeline/flows/main_flows.py:26-123`).
The job record starts Running; each stage's exception is caught by the
`except Exception` handler, which stamps a Failed record; the `finally`
block runs `remove_chunks(audio_metadata, chunk_size_minutes)` — a
filesystem deletion with no effect on the returned record when
`audio_metadata` is bound, but an `UnboundLocalError` that replaces the
handled outcome when the download stage itself raised.  An
`Except.error` result models the flow raising to its caller. -/
def youtube_pipeline_flow (env : StageEnv) : Except Str PipelineResult :=
  let result : PipelineResult := { status := JobStatus.running, started_at := some () }
  match env.download with
  | Except.error _ => Except.error unboundLocalAudioMetadata
  | Except.ok audio_metadata =>
      Except.ok
        (match env.chunk audio_metadata with
        | Except.error e =>
            { result with
                status := JobStatus.failed
                error_message := some e
                completed_at := some () }
        | Except.ok chunks =>
          let result := { result with audio_chunks := chunks }
          match env.transcribe chunks with
          | Except.error e =>
              { result with
                  status := JobStatus.failed
                  error_message := some e
                  completed_at := some () }
          | Except.ok transcriptions =>
            let result := { result with transcriptions := transcriptions }
            match env.correct transcriptions with
            | Except.error e =>
                { result with
                    status := JobStatus.failed
                    error_message := some e
                    completed_at := some () }
            | Except.ok corrections =>
              let result := { result with corrections := corrections }
              let merged_text := merge_corrected_texts corrections
              match env.summarize merged_text with
              | Except.error e =>
                  { result with
                      status := JobStatus.failed
                      error_message := some e
                      completed_at := some () }
              | Except.ok summary =>
                let _is_valid := validate_summary_quality summary merged_text
                { result with
                    summary := some summary
                    status := JobStatus.completed
                    completed_at := some ()
                    credits_consumed := max 1 (pyInt (audio_metadata.duration / 3600)) })

/-- The `text_summary_pipeline_flow`
(`shepard_pipeline/flows/main_flows.py:233-280`): summarize the text
directly, soft-validate, flat 1 credit; any stage exception is converted
into a Failed record.  This flow has no `finally` hazard and never
raises. -/
def text_summary_pipeline_flow (summarizeOutcome : Except Str SummaryResult)
    (text_content : Str) : Except Str PipelineResult :=
  let result : PipelineResult := { status := JobStatus.running, started_at := some () }
  match summarizeOutcome with
  | Except.error e =>
      Except.ok
        { result with
            status := JobStatus.failed
            error_message := some e
            completed_at := some () }
  | Except.ok summary =>
      let _is_valid := validate_summary_quality summary text_content
      Except.ok
        { result with
            summary := some summary
            status := JobStatus.completed
            completed_at := some ()
            credits_consumed := 1 }

/-! ## Mock correction service
(`services/llm_provider/mock.py:86-106`, `MockAIService.correct_text`) -/

/-- Python `s.replace(pat, rep)`: replace every non-overlapping, leftmost
occurrence of `pat`.  Every pattern in this file is non-empty, which the
`pat ≠ []` test records (Python's empty-pattern behaviour is not needed). -/
def replaceAll : Str → Str → Str → Str
  | [], _, _ => []
  | c :: rest, pat, rep =>
      if h : pat ≠ [] ∧ pat.isPrefixOf (c :: rest) then
        rep ++ replaceAll ((c :: rest).drop pat.length) pat rep
      else c :: replaceAll rest pat rep
termination_by s _ _ => s.length
decreasing_by
  · have hp : 0 < pat.length := List.length_pos.mpr h.1
    simp only [List.length_drop, List.length_cons]
    omega
  · simp

/-- The `christian_corrections` replacement table of `MockAIService`. -/
def christianCorrections : List (Str × Str) :=
  [(("神").toList, ("上帝").toList),
   (("耶穌").toList, ("耶穌基督").toList),
   (("聖靈").toList, ("聖靈").toList),
   (("教会").toList, ("教會").toList),
   (("弟兄姊妹").toList, ("弟兄姊妹").toList),
   (("祷告").toList, ("禱告").toList),
   (("赞美").toList, ("讚美").toList),
   (("见证").toList, ("見證").toList),
   (("恩典").toList, ("恩典").toList),
   (("救恩").toList, ("救恩").toList)]

/-- The terminal punctuation tuple `("。", "！", "？", "：", "；")` checked by
`MockAIService.correct_text`. -/
def mockTerminalChars : List Char := ['。', '！', '？', '：', '；']

/-- The `MockAIService.correct_text` (`services/llm_provider/mock.py:86-106`):
apply the replacement table in order, collapse double spaces and `strip`,
then append `。` when the result is non-empty and does not already end in
terminal punctuation. -/
def MockAIService.correct_text (text target_language model : Str) : CorrectionResult :=
  let corrected := christianCorrections.foldl
    (fun corrected p => replaceAll corrected p.1 p.2) text
  let corrected := pyStrip (replaceAll corrected ("  ").toList (" ").toList)
  let corrected :=
    if corrected ≠ [] ∧ endsWithAnyChar corrected mockTerminalChars = false then
      corrected ++ ['。']
    else corrected
  { original_text := text, corrected_text := corrected,
    language := target_language, model := model }

/-! ## Theorems -/

/-- C10: `MockAIService.correct_text` echoes its input unchanged as
`original_text`, and its `corrected_text` is either empty or ends in one
of the sentence-terminal characters `。 ！ ？ ： ；`. -/
theorem mock_correct_text_terminates_sentences (text target_language model : Str) :
    (MockAIService.correct_text text target_language model).original_text = text ∧
    ((MockAIService.correct_text text target_language model).corrected_text = [] ∨
      endsWithAnyChar
        (MockAIService.correct_text text target_language model).corrected_text
        mockTerminalChars = true) := by
  unfold MockAIService.correct_text
  refine ⟨rfl, ?_⟩
  set c := pyStrip (replaceAll
    (christianCorrections.foldl (fun corrected p => replaceAll corrected p.1 p.2) text)
    ("  ").toList (" ").toList) with hc
  by_cases h : c ≠ [] ∧ endsWithAnyChar c mockTerminalChars = false
  · simp only [if_pos h]
    refine Or.inr ?_
    unfold endsWithAnyChar
    rw [List.getLast?_concat]
    decide
  · simp only [if_neg h]
    rcases not_and_or.mp h with h1 | h2
    · exact Or.inl (not_not.mp h1)
    · exact Or.inr (by simpa using h2)

/-- C6 helper fact relating Python truthiness of the failure-reason field
to the presence of a non-empty failure reason. -/
theorem truthy_iff_nonempty (o : Option Str) :
    truthy o = true ↔ ∃ s, o = some s ∧ s ≠ [] := by
  cases o with
  | none => simp [truthy]
  | some s => simp [truthy, List.isEmpty_iff]

/-- C6: the correction and summarization stage tasks raise exactly when
the capability result carries a (present, non-empty) failure reason, and
otherwise return the capability's result unchanged. -/
theorem stage_tasks_raise_iff_data_failure :
    (∀ (capResult : CorrectionResult) (transcription : TranscriptionResult),
      ((∃ e, correct_transcription capResult transcription = Except.error e) ↔
        truthy capResult.failure_reason = true) ∧
      (truthy capResult.failure_reason = false →
        correct_transcription capResult transcription = Except.ok capResult)) ∧
    (∀ (capResult : SummaryResult) (text : Str),
      ((∃ e, summarize_text capResult text = Except.error e) ↔
        truthy capResult.failure_reason = true) ∧
      (truthy capResult.failure_reason = false →
        summarize_text capResult text = Except.ok capResult)) := by
  constructor
  · intro capResult transcription
    cases h : truthy capResult.failure_reason <;>
      simp [correct_transcription, h]
  · intro capResult text
    cases h : truthy capResult.failure_reason <;>
      simp [summarize_text, h]

/-- Capability result used to instantiate the failure branch of C6. -/
def failedCorrection : CorrectionResult :=
  { original_text := [], corrected_text := [], language := [], model := [],
    failure_reason := some (("parse error").toList) }

/-- Capability result used to instantiate the success branch of C6. -/
def okSummary : SummaryResult :=
  { summary := ("fine").toList, word_count := 1, model := ("m").toList }

/-- Witness for C6: a capability result with a non-empty failure reason
makes the correction stage task raise, and one with no failure reason is
returned unchanged by the summarization stage task. -/
theorem stage_tasks_raise_iff_data_failure_witness :
    truthy failedCorrection.failure_reason = true ∧
    (∃ e, correct_transcription failedCorrection
      { raw_text := [], language := [], model := [] } = Except.error e) ∧
    truthy okSummary.failure_reason = false ∧
    summarize_text okSummary [] = Except.ok okSummary :=
  ⟨by decide,
   (stage_tasks_raise_iff_data_failure.1 failedCorrection
      { raw_text := [], language := [], model := [] }).1.mpr (by decide),
   by decide,
   (stage_tasks_raise_iff_data_failure.2 okSummary []).2 (by decide)⟩

/-- The summary used to refute the byte-identity reading of the validation
gate: its text is the source text plus one trailing space. -/
def trailingSpaceSummary : SummaryResult :=
  { summary := ("0123456789 ").toList, word_count := 1, model := ("m").toList }

/-- The source text paired with `trailingSpaceSummary`. -/
def trailingSpaceOriginal : Str := ("0123456789").toList

/-- C9 counterexample: `validate_summary_quality` returns `False` on a
summary that is not empty, not shorter than 10 characters (raw or
stripped), not byte-identical to the source text, and whose self-reported
word count matches its actual token count — because the source compares
the texts after stripping whitespace, not byte-for-byte. -/
theorem validate_summary_quality_counterexample :
    validate_summary_quality trailingSpaceSummary trailingSpaceOriginal = false ∧
    trailingSpaceSummary.summary ≠ [] ∧
    ¬(trailingSpaceSummary.summary.length < 10) ∧
    ¬((pyStrip trailingSpaceSummary.summary).length < 10) ∧
    trailingSpaceSummary.summary ≠ trailingSpaceOriginal ∧
    (((pySplit trailingSpaceSummary.summary).length : ℤ) -
      trailingSpaceSummary.word_count).natAbs ≤ 5 := by
  decide

/-- C9 amended: `validate_summary_quality` is total (a boolean, never an
exception) and returns `False` exactly when the summary text is empty, or
its whitespace-stripped form is shorter than 10 characters, or its
stripped form equals the stripped source text, or the self-reported word
count differs from the actual whitespace-token count by more than 5. -/
theorem validate_summary_quality_false_iff (s : SummaryResult) (original_text : Str) :
    validate_summary_quality s original_text = false ↔
      (s.summary = [] ∨ (pyStrip s.summary).length < 10 ∨
        pyStrip s.summary = pyStrip original_text ∨
        5 < (((pySplit s.summary).length : ℤ) - s.word_count).natAbs) := by
  unfold validate_summary_quality
  by_cases h1 : s.summary = [] <;>
    by_cases h2 : (pyStrip s.summary).length < 10 <;>
      by_cases h3 : pyStrip s.summary = pyStrip original_text <;>
        by_cases h4 : (((pySplit s.summary).length : ℤ) - s.word_count).natAbs ≤ 5 <;>
          simp [h1, h2, h3, h4] <;> omega

/-- Witness for C9: the amended characterisation evaluated at the
counterexample pair — the stripped-equality disjunct fires there. -/
theorem validate_summary_quality_false_iff_witness :
    validate_summary_quality trailingSpaceSummary trailingSpaceOriginal = false :=
  (validate_summary_quality_false_iff trailingSpaceSummary trailingSpaceOriginal).mpr
    (by decide)

/-- The correction used to refute the punctuation-appending reading of
merge: its corrected text does not end in terminal punctuation. -/
def bareCorrection : CorrectionResult :=
  { original_text := ("abc").toList, corrected_text := ("abc").toList,
    language := [], model := [] }

/-- C3 counterexample: merging a single correction whose corrected text
does not end in sentence-terminal punctuation yields that text unchanged —
no terminal punctuation mark is appended at the boundary (the source
appends a space, which the final `strip` then removes). -/
theorem merge_corrected_texts_counterexample :
    merge_corrected_texts [bareCorrection] = ("abc").toList ∧
    endsWithAnyChar bareCorrection.corrected_text mergeTerminalChars = false ∧
    endsWithAnyChar (merge_corrected_texts [bareCorrection]) mergeTerminalChars = false ∧
    endsWithAnyChar (merge_corrected_texts [bareCorrection]) mockTerminalChars = false := by
  decide

/-- Unfolding the merge accumulator loop into a flat concatenation. -/
theorem merge_foldl_eq_join (corrections : List CorrectionResult) (acc : Str) :
    corrections.foldl
      (fun merged_text correction =>
        merged_text ++ correction.corrected_text ++
          (if endsWithAnyChar correction.corrected_text mergeTerminalChars then []
           else [' ']))
      acc =
    acc ++ (corrections.map
      (fun c => c.corrected_text ++
        (if endsWithAnyChar c.corrected_text mergeTerminalChars then [] else [' ']))).flatten := by
  induction corrections generalizing acc with
  | nil => simp
  | cons c cs ih =>
      rw [List.foldl_cons, ih]
      simp [List.append_assoc]

/-- C3 amended: merge concatenates the corrected texts in list order,
inserting a single ASCII space (not a punctuation mark) after each text
that does not already end in `。`, `！`, `？` or a newline, and strips
surrounding whitespace; in particular, when every corrected text already
ends in such a character the result is exactly the stripped concatenation —
no punctuation is ever inserted or duplicated. -/
theorem merge_corrected_texts_amended (corrections : List CorrectionResult) :
    merge_corrected_texts corrections =
      pyStrip ((corrections.map
        (fun c => c.corrected_text ++
          (if endsWithAnyChar c.corrected_text mergeTerminalChars then []
           else [' ']))).flatten) ∧
    ((∀ c ∈ corrections, endsWithAnyChar c.corrected_text mergeTerminalChars = true) →
      merge_corrected_texts corrections =
        pyStrip ((corrections.map (fun c => c.corrected_text)).flatten)) := by
  have hbase : merge_corrected_texts corrections =
      pyStrip ((corrections.map
        (fun c => c.corrected_text ++
          (if endsWithAnyChar c.corrected_text mergeTerminalChars then []
           else [' ']))).flatten) := by
    unfold merge_corrected_texts
    rw [merge_foldl_eq_join]
    simp
  refine ⟨hbase, fun hall => ?_⟩
  rw [hbase]
  congr 1
  congr 1
  exact List.map_congr_left fun c hc => by simp [hall c hc]

/-- A correction whose corrected text already ends in terminal
punctuation, used to instantiate C3's amended claim. -/
def punctuatedCorrection : CorrectionResult :=
  { original_text := ("好").toList, corrected_text := ("好。").toList,
    language := [], model := [] }

/-- Witness for C3's amended claim: merging two already-punctuated
corrections is the plain stripped concatenation, with nothing inserted. -/
theorem merge_corrected_texts_amended_witness :
    (∀ c ∈ [punctuatedCorrection, punctuatedCorrection],
      endsWithAnyChar c.corrected_text mergeTerminalChars = true) ∧
    merge_corrected_texts [punctuatedCorrection, punctuatedCorrection] =
      pyStrip (([punctuatedCorrection, punctuatedCorrection].map
        (fun c => c.corrected_text)).flatten) :=
  ⟨by decide,
   (merge_corrected_texts_amended [punctuatedCorrection, punctuatedCorrection]).2
     (by decide)⟩

/-- Collecting future results succeeds with `bs` exactly when the futures'
outcomes are, position by position, the successful values `bs`. -/
theorem collectResults_ok_iff {β : Type} (es : List (Except Str β)) (bs : List β) :
    collectResults es = Except.ok bs ↔
      List.Forall₂ (fun e b => e = Except.ok b) es bs := by
  induction es generalizing bs with
  | nil =>
      cases bs <;> simp [collectResults]
  | cons e es ih =>
      cases e with
      | error m => simp [collectResults, List.forall₂_cons_left_iff]
      | ok b =>
          cases hrec : collectResults es with
          | error m =>
              simp only [collectResults, hrec, Except.map, List.forall₂_cons_left_iff]
              constructor
              · intro h
                cases h
              · rintro ⟨b', l', hb, hforall, rfl⟩
                have := (ih l').mpr hforall
                rw [this] at hrec
                cases hrec
          | ok bs' =>
              simp only [collectResults, hrec, Except.map, List.forall₂_cons_left_iff]
              constructor
              · intro h
                cases h
                exact ⟨b, bs', rfl, (ih bs').mp hrec, rfl⟩
              · rintro ⟨b', l', hb, hforall, rfl⟩
                cases hb
                have := (ih l').mpr hforall
                rw [this] at hrec
                cases hrec
                rfl

/-- A raised future makes the whole collection raise. -/
theorem collectResults_error_of_mem {β : Type} {es : List (Except Str β)} {m : Str}
    (h : Except.error m ∈ es) : ∃ eo, collectResults es = Except.error eo := by
  induction es with
  | nil => cases h
  | cons e es ih =>
      cases e with
      | error m' => exact ⟨m', rfl⟩
      | ok b =>
          rcases List.mem_cons.mp h with heq | hmem
          · cases heq
          · rcases ih hmem with ⟨eo, heo⟩
            exact ⟨eo, by simp [collectResults, heo, Except.map]⟩

/-- C5: each fan-out orchestrator returns, in the success case, exactly one
result per input with the i-th result being the stage task's output on the
i-th input (positional correspondence, independent of completion order),
and raises as a whole as soon as any single stage task raises. -/
theorem fanout_order_preserving_and_failfast :
    (∀ (transcribeOne : AudioChunk → Except Str TranscriptionResult)
        (chunks : List AudioChunk) (results : List TranscriptionResult),
      transcribe_chunks_parallel transcribeOne chunks = Except.ok results →
        results.length = chunks.length ∧
        ∀ i (h1 : i < chunks.length) (h2 : i < results.length),
          transcribeOne (chunks.get ⟨i, h1⟩) = Except.ok (results.get ⟨i, h2⟩)) ∧
    (∀ (transcribeOne : AudioChunk → Except Str TranscriptionResult)
        (chunks : List AudioChunk),
      (∀ c ∈ chunks, ∃ r, transcribeOne c = Except.ok r) →
        ∃ results, transcribe_chunks_parallel transcribeOne chunks = Except.ok results) ∧
    (∀ (transcribeOne : AudioChunk → Except Str TranscriptionResult)
        (chunks : List AudioChunk) (c : AudioChunk) (m : Str),
      c ∈ chunks → transcribeOne c = Except.error m →
        ∃ eo, transcribe_chunks_parallel transcribeOne chunks = Except.error eo) ∧
    (∀ (correctOne : TranscriptionResult → Except Str CorrectionResult)
        (transcriptions : List TranscriptionResult) (results : List CorrectionResult),
      correct_transcriptions_parallel correctOne transcriptions = Except.ok results →
        results.length = transcriptions.length ∧
        ∀ i (h1 : i < transcriptions.length) (h2 : i < results.length),
          correctOne (transcriptions.get ⟨i, h1⟩) = Except.ok (results.get ⟨i, h2⟩)) ∧
    (∀ (correctOne : TranscriptionResult → Except Str CorrectionResult)
        (transcriptions : List TranscriptionResult),
      (∀ t ∈ transcriptions, ∃ r, correctOne t = Except.ok r) →
        ∃ results,
          correct_transcriptions_parallel correctOne transcriptions = Except.ok results) ∧
    (∀ (correctOne : TranscriptionResult → Except Str CorrectionResult)
        (transcriptions : List TranscriptionResult) (t : TranscriptionResult) (m : Str),
      t ∈ transcriptions → correctOne t = Except.error m →
        ∃ eo,
          correct_transcriptions_parallel correctOne transcriptions = Except.error eo) := by
  have hok : ∀ {α β : Type} (f : α → Except Str β) (xs : List α) (rs : List β),
      collectResults (xs.map f) = Except.ok rs →
        rs.length = xs.length ∧
        ∀ i (h1 : i < xs.length) (h2 : i < rs.length),
          f (xs.get ⟨i, h1⟩) = Except.ok (rs.get ⟨i, h2⟩) := by
    intro α β f xs rs h
    have hforall := (collectResults_ok_iff (xs.map f) rs).mp h
    have hforall2 : List.Forall₂ (fun x r => f x = Except.ok r) xs rs :=
      List.forall₂_map_left_iff.mp hforall
    have hlen := hforall2.length_eq
    refine ⟨hlen.symm, ?_⟩
    intro i h1 h2
    exact hforall2.get h1 h2
  have hexists : ∀ {α β : Type} (f : α → Except Str β) (xs : List α),
      (∀ x ∈ xs, ∃ r, f x = Except.ok r) →
        ∃ rs, collectResults (xs.map f) = Except.ok rs := by
    intro α β f xs hall
    induction xs with
    | nil => exact ⟨[], rfl⟩
    | cons x xs ih =>
        rcases hall x (List.mem_cons_self x xs) with ⟨r, hr⟩
        rcases ih (fun y hy => hall y (List.mem_cons_of_mem x hy)) with ⟨rs, hrs⟩
        exact ⟨r :: rs, by simp [collectResults, hr, hrs, Except.map]⟩
  have herr : ∀ {α β : Type} (f : α → Except Str β) (xs : List α) (x : α) (m : Str),
      x ∈ xs → f x = Except.error m →
        ∃ eo, collectResults (xs.map f) = Except.error eo := by
    intro α β f xs x m hx hfx
    exact collectResults_error_of_mem (hfx ▸ List.mem_map_of_mem f hx)
  exact ⟨fun f cs rs => hok f cs rs, fun f cs => hexists f cs,
    fun f cs c m => herr f cs c m, fun f ts rs => hok f ts rs,
    fun f ts => hexists f ts, fun f ts t m => herr f ts t m⟩

/-- First concrete chunk for the C5 witness. -/
def chunkA : AudioChunk :=
  { chunk_id := ("chunk_0").toList, start_time := 0, end_time := 600,
    file_path := ("a.mp3").toList, duration := 600 }

/-- Second concrete chunk for the C5 witness. -/
def chunkB : AudioChunk :=
  { chunk_id := ("chunk_1").toList, start_time := 600, end_time := 1200,
    file_path := ("b.mp3").toList, duration := 600 }

/-- Stage task double for the C5 witness: transcribes every chunk to its
own identifier. -/
def transcribeOneEx : AudioChunk → Except Str TranscriptionResult :=
  fun c => Except.ok { raw_text := c.chunk_id, language := [], model := [] }

/-- Stage task double that fails on `chunkB` only. -/
def transcribeOneFailB : AudioChunk → Except Str TranscriptionResult :=
  fun c =>
    if c = chunkB then Except.error (("timeout").toList)
    else Except.ok { raw_text := c.chunk_id, language := [], model := [] }

/-- Witness for C5: on two concrete chunks the fan-out returns the two
stage outputs in input order, and with a failing second chunk the whole
fan-out raises. -/
theorem fanout_order_preserving_and_failfast_witness :
    transcribe_chunks_parallel transcribeOneEx [chunkA, chunkB] =
      Except.ok
        [{ raw_text := chunkA.chunk_id, language := [], model := [] },
         { raw_text := chunkB.chunk_id, language := [], model := [] }] ∧
    ([{ raw_text := chunkA.chunk_id, language := [], model := [] },
      { raw_text := chunkB.chunk_id, language := [], model := [] }] :
        List TranscriptionResult).length = [chunkA, chunkB].length ∧
    chunkB ∈ [chunkA, chunkB] ∧
    transcribeOneFailB chunkB = Except.error (("timeout").toList) ∧
    ∃ eo, transcribe_chunks_parallel transcribeOneFailB [chunkA, chunkB] =
      Except.error eo :=
  ⟨rfl,
   (fanout_order_preserving_and_failfast.1 transcribeOneEx [chunkA, chunkB] _ rfl).1,
   by decide,
   rfl,
   fanout_order_preserving_and_failfast.2.2.1 transcribeOneFailB [chunkA, chunkB]
     chunkB (("timeout").toList) (by decide) rfl⟩

/-- C8: saving an `AudioResult` under a key and reading it back returns it
unchanged — the metadata round-trips losslessly, field for field, through
serialisation and validation, for every artifact store, key and result. -/
theorem save_get_audio_roundtrip (store : ArtifactStore) (key : Str)
    (audio_result : AudioResult) :
    get_audio (save_audio store key audio_result) key = some audio_result := by
  have hstore : save_audio store key audio_result (metadataPath key) =
      some (audioResultToJson audio_result) := if_pos rfl
  unfold get_audio
  rw [hstore]
  obtain ⟨ti, du, fp, fo, sr, fs, ud, od, st, en⟩ := audio_result
  cases ud <;> cases st <;> cases en <;> rfl

/-- The `strLeB` is total. -/
theorem strLeB_total : ∀ (a b : Str), strLeB a b = true ∨ strLeB b a = true := by
  intro a
  induction a with
  | nil => intro b; exact Or.inl rfl
  | cons x s ih =>
      intro b
      cases b with
      | nil => exact Or.inr rfl
      | cons y t =>
          rcases lt_trichotomy x y with hxy | hxy | hxy
          · exact Or.inl (by simp [strLeB, hxy])
          · subst hxy
            rcases ih t with h | h
            · exact Or.inl (by simp [strLeB, h])
            · exact Or.inr (by simp [strLeB, h])
          · exact Or.inr (by simp [strLeB, hxy])

/-- The `strLeB` is transitive. -/
theorem strLeB_trans : ∀ {a b c : Str},
    strLeB a b = true → strLeB b c = true → strLeB a c = true := by
  intro a
  induction a with
  | nil => intro b c _ _; rfl
  | cons x s ih =>
      intro b c hab hbc
      cases b with
      | nil => simp [strLeB] at hab
      | cons y t =>
          cases c with
          | nil => simp [strLeB] at hbc
          | cons z u =>
              by_cases hxy : x < y
              · by_cases hyz : y < z
                · simp [strLeB, lt_trans hxy hyz]
                · by_cases hyz' : y = z
                  · subst hyz'
                    simp [strLeB, hxy]
                  · simp [strLeB, hyz, hyz'] at hbc
              · by_cases hxy' : x = y
                · subst hxy'
                  by_cases hyz : x < z
                  · simp [strLeB, hyz]
                  · by_cases hyz' : x = z
                    · subst hyz'
                      simp [strLeB, hxy] at hab ⊢
                      simp [strLeB, hyz] at hbc
                      exact ih hab hbc
                    · simp [strLeB, hyz, hyz'] at hbc
                · simp [strLeB, hxy, hxy'] at hab

/-- The `strLeB` is antisymmetric. -/
theorem strLeB_antisymm : ∀ {a b : Str},
    strLeB a b = true → strLeB b a = true → a = b := by
  intro a
  induction a with
  | nil =>
      intro b _ hba
      cases b with
      | nil => rfl
      | cons y t => simp [strLeB] at hba
  | cons x s ih =>
      intro b hab hba
      cases b with
      | nil => simp [strLeB] at hab
      | cons y t =>
          by_cases hxy : x < y
          · simp [strLeB, not_lt_of_gt hxy, ne_of_gt hxy] at hba
          · by_cases hxy' : x = y
            · subst hxy'
              simp [strLeB, hxy] at hab hba
              rw [ih hab hba]
            · simp [strLeB, hxy, hxy'] at hab

instance : IsTotal (Str × PyVal) keyLE :=
  ⟨fun p q => strLeB_total p.1 q.1⟩

instance : IsTrans (Str × PyVal) keyLE :=
  ⟨fun _ _ _ hab hbc => strLeB_trans hab hbc⟩

instance : IsAntisymm (Str × PyVal) keyLT :=
  ⟨fun p q hpq hqp => absurd (strLeB_antisymm hpq.1 hqp.1) hpq.2⟩

/-- A list of pairs sorted under `keyLE` whose names are pairwise distinct
is sorted under the strict order `keyLT`. -/
theorem sorted_keyLT_of_sorted_keyLE {l : List (Str × PyVal)}
    (hs : l.Sorted keyLE) (hnd : (l.map Prod.fst).Nodup) :
    l.Sorted keyLT := by
  have hnd' : (l.map Prod.fst).Pairwise Ne := hnd
  have hne : l.Pairwise (fun p q : Str × PyVal => p.1 ≠ q.1) :=
    List.pairwise_map.mp hnd'
  exact (hs.and hne).imp (fun h => ⟨h.1, h.2⟩)

/-- Sorting keyword pairs by name identifies all permutations of a
parameter set with distinct names. -/
theorem insertionSort_keyLE_perm_eq {ps qs : List (Str × PyVal)}
    (hperm : ps.Perm qs) (hnd : (ps.map Prod.fst).Nodup) :
    List.insertionSort keyLE ps = List.insertionSort keyLE qs := by
  have hndq : (qs.map Prod.fst).Nodup := ((hperm.map Prod.fst).nodup_iff).mp hnd
  have hndps : ((List.insertionSort keyLE ps).map Prod.fst).Nodup :=
    (((List.perm_insertionSort keyLE ps).map Prod.fst).nodup_iff).mpr hnd
  have hndqs : ((List.insertionSort keyLE qs).map Prod.fst).Nodup :=
    (((List.perm_insertionSort keyLE qs).map Prod.fst).nodup_iff).mpr hndq
  refine List.eq_of_perm_of_sorted (r := keyLT) ?_ ?_ ?_
  · exact ((List.perm_insertionSort keyLE ps).trans hperm).trans
      (List.perm_insertionSort keyLE qs).symm
  · exact sorted_keyLT_of_sorted_keyLE (List.sorted_insertionSort keyLE ps) hndps
  · exact sorted_keyLT_of_sorted_keyLE (List.sorted_insertionSort keyLE qs) hndqs

/-- C7: `get_artifact_key` is a deterministic function of the set of
`(name, value)` pairs — two calls whose keyword arguments are any two
orderings of the same pairs (names being unique, as Python keyword
arguments are) produce the identical key string, whatever the digest
function does. -/
theorem get_artifact_key_order_independent (md5hex : Str → Str)
    (ps qs : List (Str × PyVal)) (hperm : ps.Perm qs)
    (hnd : (ps.map Prod.fst).Nodup) :
    get_artifact_key md5hex ps = get_artifact_key md5hex qs := by
  unfold get_artifact_key jsonDumpsSorted
  rw [insertionSort_keyLE_perm_eq hperm hnd]

/-- The `(url, start, end)` parameter set of a download, in one order. -/
def downloadParams : List (Str × PyVal) :=
  [(("url").toList, PyVal.str (("https://youtu.be/x").toList)),
   (("start").toList, PyVal.float 30),
   (("end").toList, PyVal.none)]

/-- Witness for C7: supplying the download parameter set in reversed
order produces the identical artifact key. -/
theorem get_artifact_key_order_independent_witness :
    downloadParams.Perm downloadParams.reverse ∧
    (downloadParams.map Prod.fst).Nodup ∧
    get_artifact_key (fun s => s) downloadParams =
      get_artifact_key (fun s => s) downloadParams.reverse :=
  ⟨(List.reverse_perm downloadParams).symm,
   by decide,
   get_artifact_key_order_independent (fun s => s) downloadParams
     downloadParams.reverse (List.reverse_perm downloadParams).symm (by decide)⟩

/-- A run whose download stage raises (e.g. the video is unavailable);
every later stage would succeed. -/
def envDownloadFails : StageEnv :=
  { download := Except.error (("HTTP Error 403: Forbidden").toList),
    chunk := fun _ => Except.ok [],
    transcribe := fun _ => Except.ok [],
    correct := fun _ => Except.ok [],
    summarize := fun _ =>
      Except.ok { summary := ("s").toList, word_count := 1, model := ("m").toList } }

/-- C1: when the download stage raises, `youtube_pipeline_flow` does not
return a `PipelineResult` at all — the `finally` block's
`remove_chunks(audio_metadata, ...)` hits the never-assigned
`audio_metadata` local and the flow raises `UnboundLocalError`, losing the
Failed job record the `except` handler had just built. -/
theorem youtube_flow_raises_when_download_fails :
    youtube_pipeline_flow envDownloadFails = Except.error unboundLocalAudioMetadata ∧
    ∀ r : PipelineResult, youtube_pipeline_flow envDownloadFails ≠ Except.ok r := by
  refine ⟨rfl, fun r h => ?_⟩
  rw [(rfl : youtube_pipeline_flow envDownloadFails =
    Except.error unboundLocalAudioMetadata)] at h
  cases h

/-- Downloaded audio of 125 minutes (7500 seconds). -/
def audio7500 : AudioResult :=
  { title := ("t").toList, duration := 7500, file_path := ("audio.mp3").toList,
    format := ("mp3").toList, sample_rate := 44100, file_size := 1,
    original_duration := 7500 }

/-- A run in which every stage succeeds, downloading `audio7500`. -/
def envAllOk : StageEnv :=
  { download := Except.ok audio7500,
    chunk := fun _ => Except.ok [chunkA],
    transcribe := fun _ => Except.ok [],
    correct := fun _ => Except.ok [],
    summarize := fun _ =>
      Except.ok { summary := ("s").toList, word_count := 1, model := ("m").toList } }

/-- The job record `youtube_pipeline_flow` produces for `envAllOk`. -/
def result7500 : PipelineResult :=
  { status := JobStatus.completed, audio_chunks := [chunkA],
    summary := some { summary := ("s").toList, word_count := 1, model := ("m").toList },
    started_at := some (), completed_at := some (),
    credits_consumed := max 1 (pyInt (audio7500.duration / 3600)) }

/-- C2 counterexample: a successfully completed 125-minute audio job
consumes 2 credits, not the 3 that `max(1, ceil(duration_hours))` would
give — the source truncates the duration in hours (`int(...)`) instead of
taking its ceiling. -/
theorem credits_consumed_counterexample :
    youtube_pipeline_flow envAllOk = Except.ok result7500 ∧
    result7500.status = JobStatus.completed ∧
    audio7500.duration = 125 * 60 ∧
    result7500.credits_consumed = 2 ∧
    result7500.credits_consumed ≠ 3 := by
  refine ⟨rfl, rfl, by norm_num [audio7500], ?_, ?_⟩ <;>
    norm_num [result7500, audio7500, pyInt, Rat.floor]

/-- C2 amended: a successfully completed job consumes
`max(1, int(duration_hours))` credits — the floor (truncation toward zero)
of the audio duration in hours, with a minimum of 1 — for the
audio/YouTube entry point, and a flat 1 credit for the text-only entry
point; a 45-minute job yields 1 credit and a 125-minute job yields 2. -/
theorem credits_consumed_amended :
    (∀ (env : StageEnv) (am : AudioResult) (r : PipelineResult),
      env.download = Except.ok am →
      youtube_pipeline_flow env = Except.ok r →
      r.status = JobStatus.completed →
      r.credits_consumed = max 1 (pyInt (am.duration / 3600))) ∧
    (∀ (summarizeOutcome : Except Str SummaryResult) (t : Str) (r : PipelineResult),
      text_summary_pipeline_flow summarizeOutcome t = Except.ok r →
      r.status = JobStatus.completed →
      r.credits_consumed = 1) ∧
    max 1 (pyInt ((125 * 60 : ℚ) / 3600)) = 2 ∧
    max 1 (pyInt ((45 * 60 : ℚ) / 3600)) = 1 := by
  refine ⟨?_, ?_, by norm_num [pyInt, Rat.floor], by norm_num [pyInt, Rat.floor]⟩
  · intro env am r hdl hrun hst
    unfold youtube_pipeline_flow at hrun
    rw [hdl] at hrun
    dsimp only at hrun
    cases hchunk : env.chunk am with
    | error e =>
        rw [hchunk] at hrun
        injection hrun with hr
        subst hr
        simp at hst
    | ok chunks =>
        rw [hchunk] at hrun
        dsimp only at hrun
        cases htr : env.transcribe chunks with
        | error e =>
            rw [htr] at hrun
            injection hrun with hr
            subst hr
            simp at hst
        | ok transcriptions =>
            rw [htr] at hrun
            dsimp only at hrun
            cases hco : env.correct transcriptions with
            | error e =>
                rw [hco] at hrun
                injection hrun with hr
                subst hr
                simp at hst
            | ok corrections =>
                rw [hco] at hrun
                dsimp only at hrun
                cases hsu : env.summarize (merge_corrected_texts corrections) with
                | error e =>
                    rw [hsu] at hrun
                    injection hrun with hr
                    subst hr
                    simp at hst
                | ok summary =>
                    rw [hsu] at hrun
                    injection hrun with hr
                    subst hr
                    rfl
  · intro summarizeOutcome t r hrun hst
    unfold text_summary_pipeline_flow at hrun
    cases hso : summarizeOutcome with
    | error e =>
        rw [hso] at hrun
        injection hrun with hr
        subst hr
        simp at hst
    | ok summary =>
        rw [hso] at hrun
        injection hrun with hr
        subst hr
        rfl

/-- Witness for C2's amended claim: the all-success 125-minute run,
evaluated concretely, consumes exactly `max 1 (pyInt (7500 / 3600)) = 2`
credits. -/
theorem credits_consumed_amended_witness :
    envAllOk.download = Except.ok audio7500 ∧
    youtube_pipeline_flow envAllOk = Except.ok result7500 ∧
    result7500.status = JobStatus.completed ∧
    result7500.credits_consumed = max 1 (pyInt (audio7500.duration / 3600)) :=
  ⟨rfl, rfl, rfl,
   credits_consumed_amended.1 envAllOk audio7500 result7500 rfl rfl rfl⟩

/-- The pydub chunk lengths sum to the audio's total length: the slices
cover the audio exactly. -/
theorem makeChunkLens_sum (totalMs chunkMs : Nat) (hc : 0 < chunkMs) :
    (makeChunkLens totalMs chunkMs).sum = totalMs := by
  induction totalMs using Nat.strong_induction_on with
  | _ total ih =>
      rw [makeChunkLens]
      by_cases h : 0 < total ∧ 0 < chunkMs
      · rw [dif_pos h]
        have hmin : 0 < min chunkMs total := lt_min hc h.1
        have := ih (total - min chunkMs total) (by omega)
        simp [this]
      · rw [dif_neg h]
        simp
        omega

/-- Every pydub chunk length is positive and at most the nominal chunk
length. -/
theorem makeChunkLens_mem (totalMs chunkMs : Nat) :
    ∀ l ∈ makeChunkLens totalMs chunkMs, 0 < l ∧ l ≤ chunkMs := by
  induction totalMs using Nat.strong_induction_on with
  | _ total ih =>
      rw [makeChunkLens]
      by_cases h : 0 < total ∧ 0 < chunkMs
      · rw [dif_pos h]
        intro l hl
        rcases List.mem_cons.mp hl with rfl | hl
        · exact ⟨lt_min h.2 h.1, min_le_left _ _⟩
        · have hmin : 0 < min chunkMs total := lt_min h.2 h.1
          exact ih (total - min chunkMs total) (by omega) l hl
      · rw [dif_neg h]
        intro l hl
        cases hl

/-- The pydub chunk list is empty exactly on empty audio. -/
theorem makeChunkLens_eq_nil_iff (totalMs chunkMs : Nat) (hc : 0 < chunkMs) :
    makeChunkLens totalMs chunkMs = [] ↔ totalMs = 0 := by
  rw [makeChunkLens]
  by_cases h : 0 < totalMs ∧ 0 < chunkMs
  · rw [dif_pos h]
    simp
    omega
  · rw [dif_neg h]
    simp
    omega

/-- The production chunk builder produces chunks chained from its starting
clock: each chunk starts where the previous one ends. -/
theorem buildChunks_chained (chunksDir : Str) (uuid : Nat → Str) :
    ∀ (lens : List Nat) (cur : ℚ) (i : Nat),
      chainedFromB cur (buildChunks chunksDir uuid cur i lens) = true := by
  intro lens
  induction lens with
  | nil => intro cur i; rfl
  | cons l ls ih =>
      intro cur i
      simp [buildChunks, chainedFromB, ih]

/-- The production chunk builder returns no chunks only for no slices. -/
theorem buildChunks_eq_nil_iff (chunksDir : Str) (uuid : Nat → Str)
    (lens : List Nat) (cur : ℚ) (i : Nat) :
    buildChunks chunksDir uuid cur i lens = [] ↔ lens = [] := by
  cases lens <;> simp [buildChunks]

/-- Dropping a head chunk preserves the last end time. -/
theorem lastEndB_cons_of_ne_nil (d : ℚ) (c : AudioChunk) (rest : List AudioChunk)
    (h : rest ≠ []) : lastEndB d (c :: rest) = lastEndB d rest := by
  rcases rest with _ | ⟨c2, rest⟩
  · cases h rfl
  · simp [lastEndB]

/-- The production chunk builder's final chunk ends exactly at the start
clock plus the total sliced length in seconds. -/
theorem buildChunks_lastEnd (chunksDir : Str) (uuid : Nat → Str) :
    ∀ (lens : List Nat) (cur : ℚ) (i : Nat), lens ≠ [] →
      lastEndB (cur + (lens.sum : ℚ) / 1000)
        (buildChunks chunksDir uuid cur i lens) = true := by
  intro lens
  induction lens with
  | nil => intro cur i h; cases h rfl
  | cons l ls ih =>
      intro cur i _
      cases hls : ls with
      | nil =>
          simp [buildChunks, lastEndB]
      | cons l2 ls2 =>
          have hne : buildChunks chunksDir uuid (cur + (l : ℚ) / 1000) (i + 1) ls ≠ [] := by
            rw [hls]
            simp [buildChunks]
          rw [← hls]
          have hsum : cur + ((l :: ls).sum : ℚ) / 1000 =
              (cur + (l : ℚ) / 1000) + (ls.sum : ℚ) / 1000 := by
            push_cast [List.map_cons, List.sum_cons]
            ring
          rw [show buildChunks chunksDir uuid cur i (l :: ls) =
            { chunk_id := chunkIdStr i, start_time := cur,
              end_time := cur + (l : ℚ) / 1000,
              file_path := chunkFilePath chunksDir uuid i,
              duration := (l : ℚ) / 1000 } ::
              buildChunks chunksDir uuid (cur + (l : ℚ) / 1000) (i + 1) ls from rfl]
          rw [lastEndB_cons_of_ne_nil _ _ _ hne, hsum]
          exact ih (cur + (l : ℚ) / 1000) (i + 1) (by rw [hls]; simp)

/-- Every produced production chunk records consistent interval data with
duration equal to its slice length in seconds. -/
theorem buildChunks_mem (chunksDir : Str) (uuid : Nat → Str) :
    ∀ (lens : List Nat) (cur : ℚ) (i : Nat) (c : AudioChunk),
      c ∈ buildChunks chunksDir uuid cur i lens →
      ∃ l ∈ lens, c.duration = (l : ℚ) / 1000 ∧
        c.end_time = c.start_time + c.duration := by
  intro lens
  induction lens with
  | nil => intro cur i c hc; cases hc
  | cons l ls ih =>
      intro cur i c hc
      rcases List.mem_cons.mp hc with rfl | hc
      · exact ⟨l, List.mem_cons_self l ls, rfl, rfl⟩
      · rcases ih (cur + (l : ℚ) / 1000) (i + 1) c hc with ⟨l', hl', hdur, hend⟩
        exact ⟨l', List.mem_cons_of_mem l hl', hdur, hend⟩

/-- The mock tiling loop produces chunks chained from its current clock. -/
theorem mockChunkLoop_chained (chunksDir : Str) (uuid : Nat → Str)
    (chunkDuration : Nat) :
    ∀ (cur i : Nat),
      chainedFromB (cur : ℚ) (mockChunkLoop chunksDir uuid chunkDuration cur i) = true := by
  have key : ∀ (fuel cur i : Nat), 1800 - cur ≤ fuel →
      chainedFromB (cur : ℚ) (mockChunkLoop chunksDir uuid chunkDuration cur i) = true := by
    intro fuel
    induction fuel with
    | zero =>
        intro cur i hcur
        rw [mockChunkLoop]
        rw [dif_neg (by omega)]
        rfl
    | succ n ih =>
        intro cur i hcur
        rw [mockChunkLoop]
        by_cases h : cur < 1800 ∧ 0 < chunkDuration
        · rw [dif_pos h]
          dsimp only
          have hlt : cur < min (cur + chunkDuration) 1800 :=
            lt_min (by omega) h.1
          have hrec := ih (min (cur + chunkDuration) 1800) (i + 1) (by omega)
          set m := min (cur + chunkDuration) 1800 with hm
          simp [chainedFromB, hrec]
        · rw [dif_neg h]
          rfl
  intro cur i
  exact key (1800 - cur) cur i (le_refl _)

/-- While the clock is strictly before 1800 the mock loop emits at least
one chunk. -/
theorem mockChunkLoop_ne_nil (chunksDir : Str) (uuid : Nat → Str)
    (chunkDuration cur i : Nat) (hcur : cur < 1800) (hdur : 0 < chunkDuration) :
    mockChunkLoop chunksDir uuid chunkDuration cur i ≠ [] := by
  rw [mockChunkLoop, dif_pos ⟨hcur, hdur⟩]
  simp

/-- The mock loop's final chunk always ends exactly at 1800 seconds. -/
theorem mockChunkLoop_lastEnd (chunksDir : Str) (uuid : Nat → Str)
    (chunkDuration : Nat) :
    ∀ (cur i : Nat), cur < 1800 → 0 < chunkDuration →
      lastEndB 1800 (mockChunkLoop chunksDir uuid chunkDuration cur i) = true := by
  have key : ∀ (fuel cur i : Nat), 1800 - cur ≤ fuel → cur < 1800 → 0 < chunkDuration →
      lastEndB 1800 (mockChunkLoop chunksDir uuid chunkDuration cur i) = true := by
    intro fuel
    induction fuel with
    | zero => intro cur i hcur hlt _; omega
    | succ n ih =>
        intro cur i hfuel hcur hdur
        rw [mockChunkLoop, dif_pos ⟨hcur, hdur⟩]
        dsimp only
        by_cases hend : min (cur + chunkDuration) 1800 < 1800
        · have hlt : cur < min (cur + chunkDuration) 1800 :=
            lt_min (by omega) hcur
          have hne := mockChunkLoop_ne_nil chunksDir uuid chunkDuration
            (min (cur + chunkDuration) 1800) (i + 1) hend hdur
          rw [lastEndB_cons_of_ne_nil _ _ _ hne]
          exact ih (min (cur + chunkDuration) 1800) (i + 1) (by omega) hend hdur
        · have he : min (cur + chunkDuration) 1800 = 1800 := by omega
          rw [he, mockChunkLoop, dif_neg (by omega)]
          simp [lastEndB]
  intro cur i hcur hdur
  exact key (1800 - cur) cur i (le_refl _) hcur hdur

/-- Every mock chunk records consistent interval data with a positive
duration of at most the nominal chunk duration. -/
theorem mockChunkLoop_mem (chunksDir : Str) (uuid : Nat → Str)
    (chunkDuration : Nat) :
    ∀ (cur i : Nat) (c : AudioChunk),
      c ∈ mockChunkLoop chunksDir uuid chunkDuration cur i →
      c.end_time = c.start_time + c.duration ∧ 0 < c.duration ∧
        c.duration ≤ (chunkDuration : ℚ) := by
  have key : ∀ (fuel cur i : Nat), 1800 - cur ≤ fuel → ∀ (c : AudioChunk),
      c ∈ mockChunkLoop chunksDir uuid chunkDuration cur i →
      c.end_time = c.start_time + c.duration ∧ 0 < c.duration ∧
        c.duration ≤ (chunkDuration : ℚ) := by
    intro fuel
    induction fuel with
    | zero =>
        intro cur i hcur c hc
        rw [mockChunkLoop, dif_neg (by omega)] at hc
        cases hc
    | succ n ih =>
        intro cur i hfuel c hc
        rw [mockChunkLoop] at hc
        by_cases h : cur < 1800 ∧ 0 < chunkDuration
        · rw [dif_pos h] at hc
          rcases List.mem_cons.mp hc with rfl | hc
          · refine ⟨by ring, ?_, ?_⟩
            · have hlt : cur < min (cur + chunkDuration) 1800 :=
                lt_min (by omega) h.1
              have : (cur : ℚ) < ((min (cur + chunkDuration) 1800 : Nat) : ℚ) := by
                exact_mod_cast hlt
              simp only [gt_iff_lt]
              linarith
            · have hle : min (cur + chunkDuration) 1800 ≤ cur + chunkDuration :=
                min_le_left _ _
              have : ((min (cur + chunkDuration) 1800 : Nat) : ℚ) ≤
                  (cur : ℚ) + (chunkDuration : ℚ) := by
                exact_mod_cast hle
              simp only []
              linarith
          · have hlt : cur < min (cur + chunkDuration) 1800 :=
              lt_min (by omega) h.1
            exact ih (min (cur + chunkDuration) 1800) (i + 1) (by omega) c hc
        · rw [dif_neg h] at hc
          cases hc
  intro cur i c hc
  exact key (1800 - cur) cur i (le_refl _) c hc

/-- A chunk list whose last chunk ends at `d` does not end at any other
time. -/
theorem lastEndB_false_of_ne (cs : List AudioChunk) (d d' : ℚ)
    (h : lastEndB d cs = true) (hne : d' ≠ d) : lastEndB d' cs = false := by
  unfold lastEndB at h ⊢
  cases hl : cs.getLast? with
  | none => rfl
  | some c =>
      rw [hl] at h
      have : c.end_time = d := of_decide_eq_true h
      simp [this]
      exact fun hcontra => hne hcontra.symm

/-- uuid supplier standing in for `uuid4()` in concrete runs. -/
def uuidZero : Nat → Str := fun _ => ("u").toList

/-- A 60-second audio asset. -/
def audioShort : AudioResult :=
  { title := [], duration := 60, file_path := ("a.mp3").toList,
    format := ("mp3").toList, sample_rate := 44100, file_size := 1,
    original_duration := 60 }

/-- C4 counterexample: in mock mode, chunking a 60-second audio with a
10-minute chunk size produces chunks whose last interval ends at 1800
seconds, not at the audio's duration D = 60 — the mock branch tiles a
fixed 1800-second span regardless of D, so the produced intervals do not
cover `[0, D)`. -/
theorem chunk_audio_coverage_counterexample :
    audioShort.duration = 60 ∧
    lastEndB 1800 (chunk_audio uuidZero audioShort 10 true 60000) = true ∧
    lastEndB audioShort.duration (chunk_audio uuidZero audioShort 10 true 60000) = false := by
  have h2 : lastEndB 1800 (chunk_audio uuidZero audioShort 10 true 60000) = true :=
    mockChunkLoop_lastEnd (chunk_folder audioShort 10) uuidZero (10 * 60) 0 0
      (by norm_num) (by norm_num)
  refine ⟨rfl, h2, ?_⟩
  exact lastEndB_false_of_ne _ _ _ h2 (by norm_num [audioShort])

/-- C4 amended: in production mode (`use_mock = false`), for loaded audio
of `audioLenMs` milliseconds and chunk size `S` minutes (`S ≥ 1`), the
produced chunks start at 0, are contiguous (each starts where the previous
ends), their last interval ends exactly at `audioLenMs / 1000` seconds —
so together they cover `[0, D)` for the audio's actual duration `D`, with
no gaps or overlaps — they are nonempty exactly when the audio is, and
every chunk (in particular the last) has positive duration at most `S·60`
seconds.  In mock mode (`use_mock = true`) the same contiguity and
duration bounds hold, but the chunks always tile `[0, 1800)`, whatever the
audio's duration. -/
theorem chunk_audio_coverage_amended :
    (∀ (uuid : Nat → Str) (audio_result : AudioResult) (S audioLenMs : Nat), 1 ≤ S →
      chainedFromB 0 (chunk_audio uuid audio_result S false audioLenMs) = true ∧
      (chunk_audio uuid audio_result S false audioLenMs = [] ↔ audioLenMs = 0) ∧
      (audioLenMs ≠ 0 →
        lastEndB ((audioLenMs : ℚ) / 1000)
          (chunk_audio uuid audio_result S false audioLenMs) = true) ∧
      (∀ c ∈ chunk_audio uuid audio_result S false audioLenMs,
        c.end_time = c.start_time + c.duration ∧ 0 < c.duration ∧
          c.duration ≤ (S : ℚ) * 60)) ∧
    (∀ (uuid : Nat → Str) (audio_result : AudioResult) (S audioLenMs : Nat), 1 ≤ S →
      chainedFromB 0 (chunk_audio uuid audio_result S true audioLenMs) = true ∧
      chunk_audio uuid audio_result S true audioLenMs ≠ [] ∧
      lastEndB 1800 (chunk_audio uuid audio_result S true audioLenMs) = true ∧
      (∀ c ∈ chunk_audio uuid audio_result S true audioLenMs,
        c.end_time = c.start_time + c.duration ∧ 0 < c.duration ∧
          c.duration ≤ (S : ℚ) * 60)) := by
  constructor
  · intro uuid audio_result S audioLenMs hS
    have hc : 0 < S * 60 * 1000 :=
      Nat.mul_pos (Nat.mul_pos hS (by norm_num)) (by norm_num)
    have hmain : chunk_audio uuid audio_result S false audioLenMs =
        buildChunks (chunk_folder audio_result S) uuid 0 0
          (makeChunkLens audioLenMs (S * 60 * 1000)) := rfl
    refine ⟨?_, ?_, ?_, ?_⟩
    · rw [hmain]
      exact buildChunks_chained _ _ _ 0 0
    · rw [hmain, buildChunks_eq_nil_iff]
      exact makeChunkLens_eq_nil_iff audioLenMs (S * 60 * 1000) hc
    · intro hL
      rw [hmain]
      have hne : makeChunkLens audioLenMs (S * 60 * 1000) ≠ [] := by
        rw [ne_eq, makeChunkLens_eq_nil_iff audioLenMs (S * 60 * 1000) hc]
        exact hL
      have := buildChunks_lastEnd (chunk_folder audio_result S) uuid
        (makeChunkLens audioLenMs (S * 60 * 1000)) 0 0 hne
      rwa [makeChunkLens_sum audioLenMs (S * 60 * 1000) hc, zero_add] at this
    · intro c hcmem
      rw [hmain] at hcmem
      rcases buildChunks_mem (chunk_folder audio_result S) uuid
        (makeChunkLens audioLenMs (S * 60 * 1000)) 0 0 c hcmem with
        ⟨l, hl, hdur, hend⟩
      rcases makeChunkLens_mem audioLenMs (S * 60 * 1000) l hl with ⟨hlpos, hlle⟩
      refine ⟨hend, ?_, ?_⟩
      · rw [hdur]
        have : (0 : ℚ) < (l : ℚ) := by exact_mod_cast hlpos
        positivity
      · rw [hdur]
        have hcast : (l : ℚ) ≤ ((S : ℚ) * 60 * 1000) := by
          have : (l : ℚ) ≤ ((S * 60 * 1000 : Nat) : ℚ) := by exact_mod_cast hlle
          push_cast at this
          linarith
        rw [div_le_iff (by norm_num : (0 : ℚ) < 1000)]
        linarith
  · intro uuid audio_result S audioLenMs hS
    have hdur : 0 < S * 60 := Nat.mul_pos hS (by norm_num)
    have hmain : chunk_audio uuid audio_result S true audioLenMs =
        mockChunkLoop (chunk_folder audio_result S) uuid (S * 60) 0 0 := rfl
    refine ⟨?_, ?_, ?_, ?_⟩
    · rw [hmain]
      have := mockChunkLoop_chained (chunk_folder audio_result S) uuid (S * 60) 0 0
      simpa using this
    · rw [hmain]
      exact mockChunkLoop_ne_nil _ _ _ 0 0 (by norm_num) hdur
    · rw [hmain]
      exact mockChunkLoop_lastEnd _ _ _ 0 0 (by norm_num) hdur
    · intro c hcmem
      rw [hmain] at hcmem
      rcases mockChunkLoop_mem (chunk_folder audio_result S) uuid (S * 60) 0 0 c
        hcmem with ⟨hend, hpos, hle⟩
      refine ⟨hend, hpos, ?_⟩
      have : ((S * 60 : Nat) : ℚ) = (S : ℚ) * 60 := by push_cast; ring
      rwa [this] at hle

/-- Witness for C4's amended claim: the production branch at chunk size 10
minutes on 90-second audio (90000 ms) — the hypotheses hold and the chunks
chain from 0 and end at 90 seconds. -/
theorem chunk_audio_coverage_amended_witness :
    (1 ≤ 10) ∧
    chainedFromB 0 (chunk_audio uuidZero audioShort 10 false 90000) = true ∧
    lastEndB ((90000 : ℚ) / 1000) (chunk_audio uuidZero audioShort 10 false 90000) =
      true :=
  ⟨by norm_num,
   (chunk_audio_coverage_amended.1 uuidZero audioShort 10 90000 (by norm_num)).1,
   by
     have h90 : ((90000 : Nat) : ℚ) = (90000 : ℚ) := by norm_num
     have := (chunk_audio_coverage_amended.1 uuidZero audioShort 10 90000
       (by norm_num)).2.2.1 (by norm_num)
     rwa [h90] at this⟩
